import Mathlib

/-!
Shallow embedding of the `indexing_slicing` lint core
(`src/clippy_lints/src/indexing_slicing.rs`): the range-bound
normalization function `to_const_range` and the decision logic of
`IndexingSlicing::check_expr`.

External collaborators (the constant resolver `constant(cx, tables, e)`
and the type resolver) are modelled by their outputs: each syntactic
range side is `Option (Option Constant)` (outer `Option` = the side is
present in the source, inner `Option Constant` = the resolver's result
for the side's expression), and the collection's type is `Ty`, where a
fixed-size array carries the result of `s.assert_usize(tcx)` as an
`Option Nat` (`none` when the array length is not compile-time evaluable
as a `usize`; the source then panics on `.unwrap()`, modelled as
`Except.error ()`).

Constant values are `u128` in the source; they are modelled as `Nat`
with the wrap-around of `x + 1` made explicit modulo `2 ^ 128`.
-/

namespace IndexingSlicing

/-- The external `Constant` value: an integer constant (`Constant::Int(u128)`)
or any other kind of constant. -/
inductive Constant where
  | int (x : Nat)
  | other
deriving DecidableEq

/-- Rust `RangeLimits`: `HalfOpen` for `a..b`, `Closed` for `a..=b`. -/
inductive RangeLimits where
  | halfOpen
  | closed
deriving DecidableEq

/-- The `higher::Range` view of a range-literal index, with each side's
expression replaced by the constant resolver's answer for it:
`none` = side absent in source, `some c` = side present and the external
`constant(cx, tables, expr)` call returned `c`. -/
structure Range where
  start : Option (Option Constant)
  end_ : Option (Option Constant)
  limits : RangeLimits
deriving DecidableEq

/-- `2 ^ 128`, the modulus of `u128` arithmetic. -/
def U128_MOD : Nat := 2 ^ 128

/-- Embedding of `to_const_range`: returns the start and (exclusive) end
of the range as options; `none` when the corresponding side is present
but not an integer constant. An absent start defaults to `0`, an absent
end to `array_size`, and a closed (inclusive) constant end `x` is folded
to `x + 1` (in `u128` arithmetic). -/
def to_const_range (range : Range) (array_size : Nat) : Option Nat × Option Nat :=
  (match range.start with
    | some (some (Constant.int x)) => some x
    | some _ => none
    | none => some 0,
   match range.end_ with
    | some (some (Constant.int x)) =>
        if range.limits = RangeLimits.closed then some ((x + 1) % U128_MOD) else some x
    | some _ => none
    | none => some array_size)

/-- The suggestion text attached to an advisory (`INDEXING_SLICING`)
diagnostic; stands for the corresponding help string in the source. -/
inductive HelpMsg where
  | getEndBounded
  | getStartBounded
  | getBounded
deriving DecidableEq

/-- A diagnostic emitted by the lint: `rangeOutOfBounds` is the
`OUT_OF_BOUNDS_INDEXING` lint ("range is out of bounds");
`slicingMayPanic` and `indexingMayPanic` are the advisory
`INDEXING_SLICING` lint ("slicing may panic." / "indexing may panic."). -/
inductive Diagnostic where
  | rangeOutOfBounds
  | slicingMayPanic (help : HelpMsg)
  | indexingMayPanic
deriving DecidableEq

/-- The collection's static type, as consumed by `check_expr`:
`array s` is `ty::Array(_, sz)` with `s = sz.assert_usize(tcx)`
(`none` when the length is not evaluable as a `usize`); `other` is any
non-array indexable type. -/
inductive Ty where
  | array (size : Option Nat)
  | other
deriving DecidableEq

/-- The index operand: a range literal recognized by `higher::range`, or
a scalar (catchall) index whose constant-resolver result is `const`. -/
inductive IndexKind where
  | range (r : Range)
  | scalar (const : Option Constant)
deriving DecidableEq

/-- The advisory diagnostics of the `help_msg` match in `check_expr`
(lines 154-167): keyed on the syntactic presence of each side; the
`(None, None)` full-range form returns without emitting. -/
def advisory_diags (r : Range) : List Diagnostic :=
  match r.start, r.end_ with
  | none, some _ => [Diagnostic.slicingMayPanic HelpMsg.getEndBounded]
  | some _, none => [Diagnostic.slicingMayPanic HelpMsg.getStartBounded]
  | some _, some _ => [Diagnostic.slicingMayPanic HelpMsg.getBounded]
  | none, none => []

/-- The body of the `match to_const_range(..)` in `check_expr` for a
range index into an array of known length `size` (lines 115-167),
instrumented: the `Bool` records whether control reached the advisory
stage (the `help_msg` match), i.e. whether no early `return` fired. -/
def check_range_fixed (size : Nat) (r : Range) : Bool × List Diagnostic :=
  match to_const_range r size with
  | (none, none) => (true, advisory_diags r)
  | (some start, none) =>
      if start > size then (false, [Diagnostic.rangeOutOfBounds])
      else (true, advisory_diags r)
  | (none, some e) =>
      if e > size then (false, [Diagnostic.rangeOutOfBounds])
      else (true, advisory_diags r)
  | (some start, some e) =>
      (false, if start > size ∨ e > size then [Diagnostic.rangeOutOfBounds] else [])

/-- Instrumented embedding of `IndexingSlicing::check_expr` on an index
expression: `Except.error ()` models the `assert_usize(..).unwrap()`
panic when a range indexes an array of non-evaluable length; otherwise
`ok (b, ds)` where `ds` are the emitted diagnostics and `b` records
whether the advisory stage (`span_help_and_lint`) was reached. -/
def check_expr_instr (ty : Ty) (idx : IndexKind) : Except Unit (Bool × List Diagnostic) :=
  match idx with
  | IndexKind.range r =>
    match ty with
    | Ty.array none => Except.error ()
    | Ty.array (some size) => Except.ok (check_range_fixed size r)
    | Ty.other => Except.ok (true, advisory_diags r)
  | IndexKind.scalar c =>
    match ty with
    | Ty.array _ =>
        if c.isSome then Except.ok (false, [])
        else Except.ok (true, [Diagnostic.indexingMayPanic])
    | Ty.other => Except.ok (true, [Diagnostic.indexingMayPanic])

/-- `check_expr` proper: the diagnostics emitted for one index
expression (or the `unwrap` panic). -/
def check_expr (ty : Ty) (idx : IndexKind) : Except Unit (List Diagnostic) :=
  match check_expr_instr ty idx with
  | Except.ok (_, ds) => Except.ok ds
  | Except.error e => Except.error e

/-- The diagnostics `check_expr` emits (empty on the panic path). -/
def diags (ty : Ty) (idx : IndexKind) : List Diagnostic :=
  match check_expr ty idx with
  | Except.ok ds => ds
  | Except.error _ => []

/-- Whether the advisory stage was reached for this expression. -/
def advisory_invoked (ty : Ty) (idx : IndexKind) : Bool :=
  match check_expr_instr ty idx with
  | Except.ok (b, _) => b
  | Except.error _ => false

/-- The decision table's rules 1-3 produced `NoOpinion`: not both
normalized bounds are concrete, and no concrete one exceeds `n`. -/
def no_opinion_rules_1_3 (bounds : Option Nat × Option Nat) (n : Nat) : Bool :=
  match bounds with
  | (none, none) => true
  | (some s, none) => decide (s ≤ n)
  | (none, some e) => decide (e ≤ n)
  | (some _, some _) => false

/-- The integer-constant view of a resolver result: `some x` exactly
when the resolver returned `Constant::Int(x)`. -/
def intConstVal : Option Constant → Option Nat
  | some (Constant.int x) => some x
  | _ => none

theorem oob_not_in_advisory (r : Range) :
    Diagnostic.rangeOutOfBounds ∉ advisory_diags r := by
  rcases r with ⟨s, e, l⟩
  rcases s with _ | s <;> rcases e with _ | e <;> simp [advisory_diags]

theorem advisory_diags_length (r : Range) : (advisory_diags r).length ≤ 1 := by
  rcases r with ⟨s, e, l⟩
  rcases s with _ | s <;> rcases e with _ | e <;> simp [advisory_diags]

/-- Claim C1: when both normalized bounds of a range into a
`FixedLength n` container are concrete (`to_const_range` yields
`(some s, some e)`), the outcome is the out-of-bounds diagnostic exactly
when `s > n` or `e > n`, nothing otherwise, and the advisory stage is
never reached (instrumentation bit `false`), so no advisory diagnostic
is ever produced. -/
theorem rule4_both_constant_final (n : Nat) (r : Range) (s e : Nat)
    (h : to_const_range r n = (some s, some e)) :
    check_expr_instr (Ty.array (some n)) (IndexKind.range r) =
      Except.ok (false, if s > n ∨ e > n then [Diagnostic.rangeOutOfBounds] else []) := by
  simp only [check_expr_instr, check_range_fixed, h]

/-- Claim C1 witness: `arr[2..9]` on a length-4 array. -/
theorem rule4_both_constant_final_witness :
    check_expr_instr (Ty.array (some 4))
        (IndexKind.range
          ⟨some (some (Constant.int 2)), some (some (Constant.int 9)), RangeLimits.halfOpen⟩) =
      Except.ok (false, if 2 > 4 ∨ 9 > 4 then [Diagnostic.rangeOutOfBounds] else []) :=
  rule4_both_constant_final 4 _ 2 9 (by decide)

/-- Claim C4: scalar indexing into an array type with an index that
resolves to any compile-time constant emits no diagnostic at all: the
code early-returns, deferring to rustc's `const_err` lint. Holds for
every array (the scalar branch never consults the array length). -/
theorem scalar_constant_array_no_diag (s : Option Nat) (c : Constant) :
    check_expr (Ty.array s) (IndexKind.scalar (some c)) = Except.ok [] := by
  cases s <;> rfl

/-- Claim C5: a range end that resolves to `Constant::Int v` normalizes
to the half-open upper bound `v + 1` (in `u128` arithmetic) when the
range is inclusive (`Closed`) and to `v` when it is exclusive. -/
theorem inclusive_end_fold (r : Range) (v size : Nat)
    (h : r.end_ = some (some (Constant.int v))) :
    (to_const_range r size).2 =
      if r.limits = RangeLimits.closed then some ((v + 1) % U128_MOD) else some v := by
  simp only [to_const_range, h]

/-- Claim C5 witness: `..=3` folds its end to `3 + 1`. -/
theorem inclusive_end_fold_witness :
    (to_const_range ⟨none, some (some (Constant.int 3)), RangeLimits.closed⟩ 4).2 =
      if RangeLimits.closed = RangeLimits.closed then some ((3 + 1) % U128_MOD) else some 3 :=
  inclusive_end_fold _ 3 4 rfl

/-- Claim C6: the full normalization table of `to_const_range` against a
known container length `n`: an absent lower side gives `some 0`, a
constant lower `v` gives `some v`, a non-integer-constant lower gives
`none`; an absent upper side gives `some n`, a constant upper `v` gives
`some (v + 1)` (u128 arithmetic) if inclusive else `some v`, and a
non-integer-constant upper gives `none`. -/
theorem normalized_bounds_table (n : Nat) (r : Range) :
    (r.start = none → (to_const_range r n).1 = some 0) ∧
    (∀ v, r.start = some (some (Constant.int v)) → (to_const_range r n).1 = some v) ∧
    (∀ c, r.start = some c → intConstVal c = none → (to_const_range r n).1 = none) ∧
    (r.end_ = none → (to_const_range r n).2 = some n) ∧
    (∀ v, r.end_ = some (some (Constant.int v)) →
      (to_const_range r n).2 =
        if r.limits = RangeLimits.closed then some ((v + 1) % U128_MOD) else some v) ∧
    (∀ c, r.end_ = some c → intConstVal c = none → (to_const_range r n).2 = none) := by
  refine ⟨?_, ?_, ?_, ?_, ?_, ?_⟩
  · intro h; simp only [to_const_range, h]
  · intro v h; simp only [to_const_range, h]
  · intro c h hc
    rcases c with _ | c
    · simp only [to_const_range, h]
    · rcases c with x | _
      · simp [intConstVal] at hc
      · simp only [to_const_range, h]
  · intro h; simp only [to_const_range, h]
  · intro v h; simp only [to_const_range, h]
  · intro c h hc
    rcases c with _ | c
    · simp only [to_const_range, h]
    · rcases c with x | _
      · simp [intConstVal] at hc
      · simp only [to_const_range, h]

/-- Claim C6 witness: three table rows evaluated concretely: absent
lower defaults to `0`, absent upper defaults to the length `5`, and a
present-but-non-integer lower resolves to `none`. -/
theorem normalized_bounds_table_witness :
    (to_const_range ⟨none, some (some (Constant.int 3)), RangeLimits.closed⟩ 5).1 = some 0 ∧
    (to_const_range ⟨some (some Constant.other), none, RangeLimits.halfOpen⟩ 5).2 = some 5 ∧
    (to_const_range ⟨some (some Constant.other), none, RangeLimits.halfOpen⟩ 5).1 = none :=
  ⟨(normalized_bounds_table 5 _).1 rfl,
   (normalized_bounds_table 5 _).2.2.2.1 rfl,
   (normalized_bounds_table 5 _).2.2.1 (some Constant.other) rfl rfl⟩

/-- Claim C8: the unbounded full range (both sides syntactically
absent) never produces a diagnostic, whatever the limits flag: on a
`FixedLength n` array it normalizes to `(some 0, some n)` and passes the
final both-constant check; on an unsized container the advisory stage
returns nothing for the `(none, none)` shape. -/
theorem full_range_no_diagnostic (n : Nat) (l : RangeLimits) :
    check_expr (Ty.array (some n)) (IndexKind.range ⟨none, none, l⟩) = Except.ok [] ∧
    check_expr Ty.other (IndexKind.range ⟨none, none, l⟩) = Except.ok [] := by
  constructor
  · simp [check_expr, check_expr_instr, check_range_fixed, to_const_range]
  · rfl

/-- Claim C10: for a range index into an array type, the length is
extracted by `assert_usize(..).unwrap()`: when the length is not
evaluable as a `usize` the unwrap panics (`Except.error`), never a
skipped or no-opinion verdict; every other path of `check_expr` is
total (returns `ok`). -/
theorem array_size_unwrap_totality :
    (∀ r, check_expr (Ty.array none) (IndexKind.range r) = Except.error ()) ∧
    (∀ n r, ∃ ds, check_expr (Ty.array (some n)) (IndexKind.range r) = Except.ok ds) ∧
    (∀ ty c, ∃ ds, check_expr ty (IndexKind.scalar c) = Except.ok ds) ∧
    (∀ r, ∃ ds, check_expr Ty.other (IndexKind.range r) = Except.ok ds) := by
  refine ⟨fun r => rfl, fun n r => ⟨(check_range_fixed n r).2, rfl⟩, ?_, fun r => ⟨_, rfl⟩⟩
  intro ty c
  rcases ty with s | _
  · rcases c with _ | c
    · exact ⟨_, rfl⟩
    · exact ⟨_, rfl⟩
  · exact ⟨_, rfl⟩

/-- Claim C2 counterexample: `arr[9]` with scalar constant index `9`
into a length-4 array emits no diagnostic at all — in particular not
the out-of-bounds verdict the claim requires for a concrete index
`> n`; the code defers constant scalar indexing to rustc's `const_err`. -/
theorem scalar_const_index_no_oob_cx :
    check_expr (Ty.array (some 4)) (IndexKind.scalar (some (Constant.int 9))) = Except.ok [] ∧
    Diagnostic.rangeOutOfBounds ∉
      diags (Ty.array (some 4)) (IndexKind.scalar (some (Constant.int 9))) :=
  ⟨rfl, by decide⟩

/-- Claim C2 (amended): for a range access into a `FixedLength n`
container, the out-of-bounds verdict is emitted exactly when some
normalized concrete bound exceeds `n`; and a scalar access never yields
the out-of-bounds verdict (constant scalar indexing is deferred). -/
theorem oob_iff_normalized_bound_exceeds :
    (∀ (n : Nat) (r : Range),
        Diagnostic.rangeOutOfBounds ∈ diags (Ty.array (some n)) (IndexKind.range r) ↔
          (∃ s, (to_const_range r n).1 = some s ∧ n < s) ∨
          (∃ e, (to_const_range r n).2 = some e ∧ n < e)) ∧
    (∀ (ty : Ty) (c : Option Constant),
        Diagnostic.rangeOutOfBounds ∉ diags ty (IndexKind.scalar c)) := by
  constructor
  · intro n r
    have hadv := oob_not_in_advisory r
    simp only [diags, check_expr, check_expr_instr]
    rcases hc : to_const_range r n with ⟨lo, hi⟩
    rcases lo with _ | s <;> rcases hi with _ | e
    · simp [check_range_fixed, hc, hadv]
    · by_cases h : e > n <;> simp [check_range_fixed, hc, h, hadv]
    · by_cases h : s > n <;> simp [check_range_fixed, hc, h, hadv]
    · by_cases hs : s > n
      · simp [check_range_fixed, hc, hs]
      · by_cases he : e > n <;> simp [check_range_fixed, hc, hs, he]
  · intro ty c
    rcases ty with s | _
    · rcases c with _ | c <;> simp [diags, check_expr, check_expr_instr]
    · simp [diags, check_expr, check_expr_instr]

/-- Claim C2 witness: `arr[2..9]` on a length-4 array has normalized
upper bound `9 > 4`, and the out-of-bounds diagnostic is emitted. -/
theorem oob_iff_normalized_bound_exceeds_witness :
    Diagnostic.rangeOutOfBounds ∈
      diags (Ty.array (some 4))
        (IndexKind.range
          ⟨some (some (Constant.int 2)), some (some (Constant.int 9)), RangeLimits.halfOpen⟩) :=
  (oob_iff_normalized_bound_exceeds.1 4 _).mpr (Or.inr ⟨9, by decide, by decide⟩)

/-- Claim C3 counterexample: `arr[9..x]` (lower constant `9`, upper
present but non-constant) on a length-4 array is a range access that is
not the both-sides-concrete case (the normalized upper bound is `none`),
yet the advisory stage is not invoked: the out-of-bounds early return
of rule 2 fires first. -/
theorem advisory_not_invoked_rule2_oob_cx :
    to_const_range ⟨some (some (Constant.int 9)), some none, RangeLimits.halfOpen⟩ 4 =
        (some 9, none) ∧
    advisory_invoked (Ty.array (some 4))
        (IndexKind.range ⟨some (some (Constant.int 9)), some none, RangeLimits.halfOpen⟩) =
      false ∧
    diags (Ty.array (some 4))
        (IndexKind.range ⟨some (some (Constant.int 9)), some none, RangeLimits.halfOpen⟩) =
      [Diagnostic.rangeOutOfBounds] :=
  ⟨by decide, by decide, by decide⟩

/-- Claim C3 (amended): the advisory stage is invoked whenever the
container is unsized, and for a `FixedLength n` container exactly when
rules 1-3 of the decision table produced no-opinion (not both normalized
bounds concrete, and no concrete bound exceeding `n`); it is skipped
both in the finalized both-concrete case and after an out-of-bounds
early return from rules 2-3. -/
theorem advisory_invoked_iff :
    (∀ r, advisory_invoked Ty.other (IndexKind.range r) = true) ∧
    (∀ (n : Nat) (r : Range),
        advisory_invoked (Ty.array (some n)) (IndexKind.range r) = true ↔
          no_opinion_rules_1_3 (to_const_range r n) n = true) := by
  constructor
  · intro r; rfl
  · intro n r
    simp only [advisory_invoked, check_expr_instr]
    rcases hc : to_const_range r n with ⟨lo, hi⟩
    rcases lo with _ | s <;> rcases hi with _ | e
    · simp [check_range_fixed, hc, no_opinion_rules_1_3]
    · by_cases h : e > n
      · simp [check_range_fixed, hc, no_opinion_rules_1_3, h]
      · simp [check_range_fixed, hc, no_opinion_rules_1_3, h]
        omega
    · by_cases h : s > n
      · simp [check_range_fixed, hc, no_opinion_rules_1_3, h]
      · simp [check_range_fixed, hc, no_opinion_rules_1_3, h]
        omega
    · simp [check_range_fixed, hc, no_opinion_rules_1_3]

/-- Claim C3 witness: `arr[..x]` with non-constant upper on a length-4
array normalizes to `(some 0, none)`, rule 2 yields no-opinion, and the
advisory stage runs. -/
theorem advisory_invoked_iff_witness :
    advisory_invoked (Ty.array (some 4))
        (IndexKind.range ⟨none, some none, RangeLimits.halfOpen⟩) = true :=
  (advisory_invoked_iff.2 4 _).mpr (by decide)

/-- Claim C7: the out-of-bounds comparisons are strict: whenever every
normalized concrete bound is at most `n` — in particular a bound exactly
equal to `n`, or a zero-length container with bounds `0` — the
out-of-bounds diagnostic is never produced. -/
theorem bounds_le_size_no_oob (n : Nat) (r : Range)
    (hs : ∀ s, (to_const_range r n).1 = some s → s ≤ n)
    (he : ∀ e, (to_const_range r n).2 = some e → e ≤ n) :
    Diagnostic.rangeOutOfBounds ∉ diags (Ty.array (some n)) (IndexKind.range r) := by
  have hadv := oob_not_in_advisory r
  simp only [diags, check_expr, check_expr_instr]
  rcases hc : to_const_range r n with ⟨lo, hi⟩
  rcases lo with _ | s <;> rcases hi with _ | e
  · simp [check_range_fixed, hc, hadv]
  · have h2 := he e (by rw [hc])
    simp [check_range_fixed, hc, hadv, Nat.not_lt.mpr h2]
  · have h1 := hs s (by rw [hc])
    simp [check_range_fixed, hc, hadv, Nat.not_lt.mpr h1]
  · have h1 := hs s (by rw [hc])
    have h2 := he e (by rw [hc])
    simp [check_range_fixed, hc, Nat.not_lt.mpr h1, Nat.not_lt.mpr h2]

/-- Claim C7 witness: `arr[4..4]` on a length-4 array (both bounds
exactly `n`) and `arr[..]` on a length-0 array are not flagged. -/
theorem bounds_le_size_no_oob_witness :
    Diagnostic.rangeOutOfBounds ∉
        diags (Ty.array (some 4))
          (IndexKind.range
            ⟨some (some (Constant.int 4)), some (some (Constant.int 4)), RangeLimits.halfOpen⟩) ∧
    Diagnostic.rangeOutOfBounds ∉
        diags (Ty.array (some 0)) (IndexKind.range ⟨none, none, RangeLimits.halfOpen⟩) :=
  ⟨bounds_le_size_no_oob 4 _
      (fun s h => by simp [to_const_range] at h; omega)
      (fun e h => by simp [to_const_range] at h; omega),
   bounds_le_size_no_oob 0 _
      (fun s h => by simp [to_const_range] at h; omega)
      (fun e h => by simp [to_const_range] at h; omega)⟩

theorem check_range_fixed_length_le_one (n : Nat) (r : Range) :
    (check_range_fixed n r).2.length ≤ 1 := by
  have hadv := advisory_diags_length r
  rcases hc : to_const_range r n with ⟨lo, hi⟩
  rcases lo with _ | s <;> rcases hi with _ | e
  · simpa [check_range_fixed, hc] using hadv
  · by_cases h : e > n <;> simp [check_range_fixed, hc, h, hadv]
  · by_cases h : s > n <;> simp [check_range_fixed, hc, h, hadv]
  · by_cases h : s > n ∨ e > n <;> simp [check_range_fixed, hc, h]

/-- Claim C9: `check_expr` emits at most one diagnostic per expression:
every non-panicking outcome is the empty list or a single diagnostic, so
the definite and advisory categories are mutually exclusive. -/
theorem at_most_one_diagnostic (ty : Ty) (idx : IndexKind) (ds : List Diagnostic)
    (h : check_expr ty idx = Except.ok ds) : ds.length ≤ 1 := by
  rcases idx with r | c
  · rcases ty with (_ | n) | _
    · simp [check_expr, check_expr_instr] at h
    · rcases hcf : check_range_fixed n r with ⟨b, ds'⟩
      simp only [check_expr, check_expr_instr, hcf] at h
      have := check_range_fixed_length_le_one n r
      rw [hcf] at this
      cases h
      exact this
    · simp only [check_expr, check_expr_instr] at h
      cases h
      exact advisory_diags_length r
  · rcases ty with (_ | n) | _ <;> rcases c with _ | c <;>
      simp only [check_expr, check_expr_instr, Option.isSome] at h <;>
      cases h <;> simp

/-- Claim C9 witness: the unresolvable scalar index into an unsized
container yields a single advisory diagnostic. -/
theorem at_most_one_diagnostic_witness :
    ([Diagnostic.indexingMayPanic] : List Diagnostic).length ≤ 1 :=
  at_most_one_diagnostic Ty.other (IndexKind.scalar none) [Diagnostic.indexingMayPanic] rfl

end IndexingSlicing

